import Mathlib

/-!
# Verification of the WeatherAnalyzer core (`weather.py`)

Shallow embedding of the data model and operations of `weather.py`:
`DailyWeather`, `HistoricalWeather` (a date-keyed store with insertion
order, mirroring a Python `dict`), `Country`, and the ingestion routine
`load_data`.

Modelling conventions:
* Python `float` values are modelled as exact rationals (`Rat`).
* A Python `dict` is modelled as an association list in insertion order
  (Python dicts preserve insertion order, which the tie-breaking
  behaviour of `contiguous_precipitation` and `snowiest_location`
  depends on).
* Fallible Python operations are modelled with `Option` / `Except`:
  an uncaught `IndexError` / `ValueError` escaping a function is an
  `Except.error`.
* Calendar dates are unbounded Gregorian dates; `mkDate?` models the
  validation performed by Python's `datetime.date` constructor.
-/

namespace WeatherAnalyzer

/-- One day's weather facts (class `DailyWeather`). Floats are `Rat`. -/
structure DailyWeather where
  avg_temp : Rat
  low_temp : Rat
  high_temp : Rat
  precipitation : Rat
  rainfall : Rat
  snowfall : Rat
deriving DecidableEq, Repr

/-- A Gregorian calendar date (Python `datetime.date`), year unbounded. -/
structure Date where
  year : Nat
  month : Nat
  day : Nat
deriving DecidableEq, Repr

/-- Gregorian leap-year rule, as used by `datetime.date`. -/
def isLeap (y : Nat) : Bool :=
  y % 4 == 0 && (y % 100 != 0 || y % 400 == 0)

/-- Number of days in month `m` of year `y` (months 1..12). -/
def daysInMonth (y m : Nat) : Nat :=
  if m = 2 then (if isLeap y then 29 else 28)
  else if m = 4 ∨ m = 6 ∨ m = 9 ∨ m = 11 then 30
  else 31

/-- The next calendar day (Python `d + timedelta(days=1)`). -/
def nextDate (d : Date) : Date :=
  if d.day < daysInMonth d.year d.month then ⟨d.year, d.month, d.day + 1⟩
  else if d.month < 12 then ⟨d.year, d.month + 1, 1⟩
  else ⟨d.year + 1, 1, 1⟩

/-- `d` advanced by `n` calendar days. -/
def addDays (d : Date) : Nat → Date
  | 0 => d
  | n + 1 => addDays (nextDate d) n

/-- `d` is a valid Gregorian date (what Python's `date` type guarantees
about every date object; the year upper bound 9999 is a representation
limit we do not need here). -/
def ValidDate (d : Date) : Prop :=
  1 ≤ d.month ∧ d.month ≤ 12 ∧ 1 ≤ d.day ∧ d.day ≤ daysInMonth d.year d.month

instance : DecidablePred ValidDate := fun _ => by unfold ValidDate; infer_instance

/-- Per-location store (class `HistoricalWeather`). `records` models the
private dict `_records` as an association list in insertion order. -/
structure HistoricalWeather where
  name : String
  coordinates : Rat × Rat
  records : List (Date × DailyWeather)
deriving DecidableEq, Repr

/-- First-match association-list lookup, mirroring Python dict lookup
(on the stores built by the program, keys are unique). -/
def lookupRec (recs : List (Date × DailyWeather)) (d : Date) : Option DailyWeather :=
  match recs with
  | [] => none
  | e :: rest => if e.1 = d then some e.2 else lookupRec rest d

/-- `HistoricalWeather.add_weather`: scan the keys for `d`; if present do
nothing, otherwise the dict assignment `self._records[d] = w` appends a
new entry (Python dicts append new keys in insertion order). -/
def add_weather (hw : HistoricalWeather) (d : Date) (w : DailyWeather) : HistoricalWeather :=
  if (hw.records.map Prod.fst).contains d then hw
  else { hw with records := hw.records ++ [(d, w)] }

/-- `HistoricalWeather.retrieve_weather`: scan the keys for `d` and
return the stored record, else `None`. -/
def retrieve_weather (hw : HistoricalWeather) (d : Date) : Option DailyWeather :=
  lookupRec hw.records d

theorem lookupRec_eq_none_iff (recs : List (Date × DailyWeather)) (d : Date) :
    lookupRec recs d = none ↔ ¬ (recs.map Prod.fst).contains d := by
  induction recs with
  | nil => simp [lookupRec]
  | cons e rest ih =>
    by_cases h : e.1 = d
    · simp [lookupRec, h]
    · simp [lookupRec, h, ih, Ne.symm h]

theorem lookupRec_append (l₁ l₂ : List (Date × DailyWeather)) (d : Date) :
    lookupRec (l₁ ++ l₂) d =
      (lookupRec l₁ d).rec (lookupRec l₂ d) (fun w => some w) := by
  induction l₁ with
  | nil => simp [lookupRec]
  | cons e rest ih =>
    by_cases h : e.1 = d <;> simp [lookupRec, h, ih]

/-- Python's builtin `max` on a list: `none` on the empty list (where
Python raises `ValueError`), otherwise the maximum. -/
def pyMax {α : Type} [LinearOrder α] : List α → Option α
  | [] => none
  | x :: xs => some (xs.foldl max x)

theorem foldl_max_le_self {α : Type} [LinearOrder α] (l : List α) (a : α) :
    a ≤ l.foldl max a := by
  induction l generalizing a with
  | nil => simp
  | cons x xs ih => exact le_trans (le_max_left a x) (ih (max a x))

theorem le_foldl_max {α : Type} [LinearOrder α] (l : List α) (a b : α)
    (hb : b ∈ l) : b ≤ l.foldl max a := by
  induction l generalizing a with
  | nil => cases hb
  | cons x xs ih =>
    rcases List.mem_cons.mp hb with h | h
    · subst h
      exact le_trans (le_max_right a b) (foldl_max_le_self xs (max a b))
    · exact ih (max a x) h

theorem foldl_max_mem {α : Type} [LinearOrder α] (l : List α) (a : α) :
    l.foldl max a = a ∨ l.foldl max a ∈ l := by
  induction l generalizing a with
  | nil => exact Or.inl rfl
  | cons x xs ih =>
    rcases ih (max a x) with h | h
    · rcases max_choice a x with h2 | h2
      · exact Or.inl (by rw [List.foldl_cons, h, h2])
      · exact Or.inr (by rw [List.foldl_cons, h, h2]; exact List.mem_cons_self x xs)
    · exact Or.inr (List.mem_cons_of_mem x h)

theorem pyMax_spec {α : Type} [LinearOrder α] (l : List α) (h : l ≠ []) :
    ∃ v, pyMax l = some v ∧ v ∈ l ∧ ∀ b ∈ l, b ≤ v := by
  match l with
  | [] => exact absurd rfl h
  | x :: xs =>
    refine ⟨xs.foldl max x, rfl, ?_, ?_⟩
    · rcases foldl_max_mem xs x with h | h
      · rw [h]; exact List.mem_cons_self x xs
      · exact List.mem_cons_of_mem x h
    · intro b hb
      rcases List.mem_cons.mp hb with h | h
      · subst h; exact foldl_max_le_self xs b
      · exact le_foldl_max xs x b h

/-- A Python loop `for e in l: if p e: acc.append (f e)` is the map of
the filter. -/
theorem foldl_if_append {α β : Type} (p : α → Bool) (f : α → β)
    (l : List α) (acc : List β) :
    l.foldl (fun acc e => if p e then acc ++ [f e] else acc) acc
      = acc ++ (l.filter p).map f := by
  induction l generalizing acc with
  | nil => simp
  | cons x xs ih =>
    by_cases h : p x <;>
      simp [List.foldl_cons, h, ih, List.filter_cons]

/-- `HistoricalWeather.record_high`: collect the `high_temp` of every
record at month `m`, day `d` (any year), then take Python `max`
(which raises on an empty list, modelled by `none`). -/
def record_high (hw : HistoricalWeather) (m d : Nat) : Option Rat :=
  pyMax (hw.records.foldl
    (fun acc e => if e.1.month == m && e.1.day == d then acc ++ [e.2.high_temp] else acc)
    [])

/-- **C2.** If some record matches `(m, d)`, `record_high` returns the
maximum `high_temp` over exactly the records whose date has month `m`
and day `d`, across all years. -/
theorem record_high_spec (hw : HistoricalWeather) (m d : Nat)
    (h : ∃ e ∈ hw.records, e.1.month = m ∧ e.1.day = d) :
    ∃ v, record_high hw m d = some v ∧
      (∃ e ∈ hw.records, (e.1.month = m ∧ e.1.day = d) ∧ e.2.high_temp = v) ∧
      (∀ e ∈ hw.records, e.1.month = m → e.1.day = d → e.2.high_temp ≤ v) := by
  have hrw := foldl_if_append
    (fun e : Date × DailyWeather => e.1.month == m && e.1.day == d)
    (fun e => e.2.high_temp) hw.records []
  set lst := ((hw.records.filter
      (fun e : Date × DailyWeather => e.1.month == m && e.1.day == d)).map
      (fun e => e.2.high_temp)) with hlst
  have hne : lst ≠ [] := by
    obtain ⟨e, he, hm, hd⟩ := h
    have hf : e ∈ hw.records.filter
        (fun e : Date × DailyWeather => e.1.month == m && e.1.day == d) :=
      List.mem_filter.mpr ⟨he, by simp [hm, hd]⟩
    exact List.ne_nil_of_mem (List.mem_map_of_mem _ hf)
  obtain ⟨v, hv, hvmem, hvle⟩ := pyMax_spec lst hne
  refine ⟨v, ?_, ?_, ?_⟩
  · rw [record_high, hrw, List.nil_append]
    exact hv
  · obtain ⟨e, he, hee⟩ := List.mem_map.mp hvmem
    obtain ⟨he1, he2⟩ := List.mem_filter.mp he
    simp only [Bool.and_eq_true, beq_iff_eq] at he2
    exact ⟨e, he1, he2, hee⟩
  · intro e he hm hd
    exact hvle _ (List.mem_map_of_mem _
      (List.mem_filter.mpr ⟨he, by simp [hm, hd]⟩))

/-- Witness for C2: highs 20 (2012-06-04) and 30 (2010-06-04). -/
theorem record_high_spec_witness :
    ∃ v, record_high ⟨"City", (0, 0),
        [(⟨2012, 6, 4⟩, ⟨0, 0, 20, 0, 0, 0⟩), (⟨2010, 6, 4⟩, ⟨0, 0, 30, 0, 0, 0⟩)]⟩ 6 4
      = some v ∧
      (∃ e ∈ [(({ year := 2012, month := 6, day := 4 } : Date),
               ({ avg_temp := 0, low_temp := 0, high_temp := 20, precipitation := 0,
                  rainfall := 0, snowfall := 0 } : DailyWeather)),
              (⟨2010, 6, 4⟩, ⟨0, 0, 30, 0, 0, 0⟩)],
        (e.1.month = 6 ∧ e.1.day = 4) ∧ e.2.high_temp = v) ∧
      (∀ e ∈ [(({ year := 2012, month := 6, day := 4 } : Date),
               ({ avg_temp := 0, low_temp := 0, high_temp := 20, precipitation := 0,
                  rainfall := 0, snowfall := 0 } : DailyWeather)),
              (⟨2010, 6, 4⟩, ⟨0, 0, 30, 0, 0, 0⟩)],
        e.1.month = 6 → e.1.day = 4 → e.2.high_temp ≤ v) :=
  record_high_spec ⟨"City", (0, 0),
    [(⟨2012, 6, 4⟩, ⟨0, 0, 20, 0, 0, 0⟩), (⟨2010, 6, 4⟩, ⟨0, 0, 30, 0, 0, 0⟩)]⟩ 6 4
    ⟨(⟨2012, 6, 4⟩, ⟨0, 0, 20, 0, 0, 0⟩), by decide, by decide⟩

/-- The fixed three-letter month abbreviations produced by
`date(2000, month, 20).strftime('%b')` in the C locale. -/
def monthAbbrev : Nat → String
  | 1 => "Jan" | 2 => "Feb" | 3 => "Mar" | 4 => "Apr"
  | 5 => "May" | 6 => "Jun" | 7 => "Jul" | 8 => "Aug"
  | 9 => "Sep" | 10 => "Oct" | 11 => "Nov" | 12 => "Dec"
  | _ => ""

/-- The inner loop of `monthly_average`: the `low_temp` of every record
whose date falls in month `m`, in store order. -/
def lowsForMonth (hw : HistoricalWeather) (m : Nat) : List Rat :=
  hw.records.foldl
    (fun acc e => if e.1.month == m then acc ++ [e.2.low_temp] else acc) []

/-- `HistoricalWeather.monthly_average`: for months 1..12 in order,
average the collected `low_temp`s (Python `sum(...) / len(...)`), or
`None` when the month has no records.  The Python dict, built in month
order, is modelled as an ordered association list. -/
def monthly_average (hw : HistoricalWeather) : List (String × Option Rat) :=
  (List.range 12).map (fun i =>
    let lows := lowsForMonth hw (i + 1)
    (monthAbbrev (i + 1),
      if lows.length > 0 then some (lows.sum / lows.length) else none))

/-- **C3.** `monthly_average` has exactly the keys Jan..Dec; a month
with at least one recorded day maps to the arithmetic mean of the
`low_temp`s of that month's records (stated as `v * count = sum`), and a
month with no recorded day maps to `none`. -/
theorem monthly_average_spec (hw : HistoricalWeather) :
    (monthly_average hw).map Prod.fst =
      ["Jan", "Feb", "Mar", "Apr", "May", "Jun",
       "Jul", "Aug", "Sep", "Oct", "Nov", "Dec"] ∧
    ∀ m, 1 ≤ m → m ≤ 12 →
      ((lowsForMonth hw m = [] ∧ (monthAbbrev m, (none : Option Rat)) ∈ monthly_average hw) ∨
       (lowsForMonth hw m ≠ [] ∧ ∃ v, (monthAbbrev m, some v) ∈ monthly_average hw ∧
          v * (lowsForMonth hw m).length = (lowsForMonth hw m).sum)) := by
  constructor
  · rfl
  · intro m h1 h2
    have hmem : m - 1 ∈ List.range 12 := by
      rw [List.mem_range]; omega
    have hm1 : m - 1 + 1 = m := by omega
    by_cases hl : lowsForMonth hw m = []
    · left
      refine ⟨hl, ?_⟩
      simp only [monthly_average]
      refine List.mem_map.mpr ⟨m - 1, hmem, ?_⟩
      show (monthAbbrev (m - 1 + 1),
          if (lowsForMonth hw (m - 1 + 1)).length > 0
          then some ((lowsForMonth hw (m - 1 + 1)).sum /
            ((lowsForMonth hw (m - 1 + 1)).length : Rat))
          else none) = (monthAbbrev m, (none : Option Rat))
      rw [hm1]
      simp [hl]
    · right
      have hpos : 0 < (lowsForMonth hw m).length := List.length_pos.mpr hl
      refine ⟨hl, (lowsForMonth hw m).sum / (lowsForMonth hw m).length, ?_, ?_⟩
      · simp only [monthly_average]
        refine List.mem_map.mpr ⟨m - 1, hmem, ?_⟩
        show (monthAbbrev (m - 1 + 1),
            if (lowsForMonth hw (m - 1 + 1)).length > 0
            then some ((lowsForMonth hw (m - 1 + 1)).sum /
              ((lowsForMonth hw (m - 1 + 1)).length : Rat))
            else none)
          = (monthAbbrev m,
            some ((lowsForMonth hw m).sum / ((lowsForMonth hw m).length : Rat)))
        rw [hm1, if_pos hpos]
      · have hlen : ((lowsForMonth hw m).length : Rat) ≠ 0 := by
          exact_mod_cast Nat.pos_iff_ne_zero.mp hpos
        rw [div_mul_cancel₀ _ hlen]

/-- Witness for C3 at a store with a single January record. -/
theorem monthly_average_spec_witness :
    (lowsForMonth ⟨"C", (0, 0), [(⟨2019, 1, 1⟩, ⟨13, 11, 30, 0, 0, 0⟩)]⟩ 2 = [] ∧
      (monthAbbrev 2, (none : Option Rat)) ∈
        monthly_average ⟨"C", (0, 0), [(⟨2019, 1, 1⟩, ⟨13, 11, 30, 0, 0, 0⟩)]⟩) ∨
    (lowsForMonth ⟨"C", (0, 0), [(⟨2019, 1, 1⟩, ⟨13, 11, 30, 0, 0, 0⟩)]⟩ 2 ≠ [] ∧
      ∃ v, (monthAbbrev 2, some v) ∈
          monthly_average ⟨"C", (0, 0), [(⟨2019, 1, 1⟩, ⟨13, 11, 30, 0, 0, 0⟩)]⟩ ∧
        v * (lowsForMonth ⟨"C", (0, 0), [(⟨2019, 1, 1⟩, ⟨13, 11, 30, 0, 0, 0⟩)]⟩ 2).length
          = (lowsForMonth ⟨"C", (0, 0), [(⟨2019, 1, 1⟩, ⟨13, 11, 30, 0, 0, 0⟩)]⟩ 2).sum) :=
  (monthly_average_spec ⟨"C", (0, 0), [(⟨2019, 1, 1⟩, ⟨13, 11, 30, 0, 0, 0⟩)]⟩).2
    2 (by decide) (by decide)

/-- Linearization of dates used to show that walking forward one day at
a time never revisits a date. -/
def toOrd (d : Date) : Nat := 372 * d.year + 31 * d.month + d.day

theorem addDays_succ (d : Date) (n : Nat) :
    addDays d (n + 1) = nextDate (addDays d n) := by
  induction n generalizing d with
  | zero => rfl
  | succ n ih =>
    show addDays (nextDate d) (n + 1) = nextDate (addDays (nextDate d) n)
    exact ih (nextDate d)

theorem daysInMonth_le (y m : Nat) : daysInMonth y m ≤ 31 := by
  unfold daysInMonth
  split_ifs <;> omega

theorem daysInMonth_pos (y m : Nat) : 1 ≤ daysInMonth y m := by
  unfold daysInMonth
  split_ifs <;> omega

theorem toOrd_lt_nextDate (d : Date) (hv : ValidDate d) :
    toOrd d < toOrd (nextDate d) := by
  obtain ⟨h1, h2, h3, h4⟩ := hv
  have hd31 : d.day ≤ 31 := le_trans h4 (daysInMonth_le d.year d.month)
  unfold nextDate toOrd
  split_ifs with hlt hm <;> dsimp only <;> omega

theorem validDate_nextDate (d : Date) (hv : ValidDate d) :
    ValidDate (nextDate d) := by
  obtain ⟨h1, h2, h3, h4⟩ := hv
  have hp1 := daysInMonth_pos d.year (d.month + 1)
  have hp2 := daysInMonth_pos (d.year + 1) 1
  unfold nextDate ValidDate
  split_ifs with hlt hm <;> dsimp only <;> omega

/-- `precipitation > 0 or precipitation == -1`: the day counts as
precipitating. -/
def isPrecipDay (w : DailyWeather) : Bool :=
  decide (0 < w.precipitation) || decide (w.precipitation = -1)

/-- The guard of the inner `while` loop of `contiguous_precipitation`:
the date is present in the store and its record is precipitating. -/
def wetAt (recs : List (Date × DailyWeather)) (d : Date) : Bool :=
  match lookupRec recs d with
  | some w => isPrecipDay w
  | none => false

theorem lookupRec_some_mem (recs : List (Date × DailyWeather)) (d : Date)
    (w : DailyWeather) (h : lookupRec recs d = some w) :
    d ∈ recs.map Prod.fst := by
  induction recs with
  | nil => simp [lookupRec] at h
  | cons e rest ih =>
    by_cases he : e.1 = d
    · simp [List.map_cons, ← he]
    · simp only [lookupRec, if_neg he] at h
      simp only [List.map_cons, List.mem_cons]
      exact Or.inr (ih h)

theorem wetAt_mem_keys (recs : List (Date × DailyWeather)) (d : Date)
    (h : wetAt recs d = true) : d ∈ recs.map Prod.fst := by
  unfold wetAt at h
  cases hl : lookupRec recs d with
  | none => rw [hl] at h; cases h
  | some w => exact lookupRec_some_mem recs d w hl

/-- The inner `while` loop of `contiguous_precipitation`: number of
consecutive wet days starting at `d`, walked with explicit fuel.  Since
the walked dates are distinct keys of the store, `hw.records.length`
fuel is always enough (proved below). -/
def runLen (recs : List (Date × DailyWeather)) : Nat → Date → Nat
  | 0, _ => 0
  | fuel + 1, d => if wetAt recs d then runLen recs fuel (nextDate d) + 1 else 0

theorem runLen_wet (recs : List (Date × DailyWeather)) :
    ∀ (fuel : Nat) (d : Date) (k : Nat), k < runLen recs fuel d →
      wetAt recs (addDays d k) = true := by
  intro fuel
  induction fuel with
  | zero => intro d k h; simp [runLen] at h
  | succ n ih =>
    intro d k h
    simp only [runLen] at h
    by_cases hw : wetAt recs d = true
    · rw [if_pos hw] at h
      cases k with
      | zero => exact hw
      | succ k =>
        have hk : k < runLen recs n (nextDate d) := by omega
        exact ih (nextDate d) k hk
    · rw [if_neg hw] at h
      omega

theorem runLen_ge (recs : List (Date × DailyWeather)) :
    ∀ (m fuel : Nat) (d : Date), m ≤ fuel →
      (∀ k, k < m → wetAt recs (addDays d k) = true) →
      m ≤ runLen recs fuel d := by
  intro m
  induction m with
  | zero => intro fuel d _ _; omega
  | succ n ih =>
    intro fuel d hf hchain
    obtain ⟨f, rfl⟩ : ∃ f, fuel = f + 1 := ⟨fuel - 1, by omega⟩
    have hw : wetAt recs d = true := hchain 0 (by omega)
    simp only [runLen, if_pos hw]
    have hrec : n ≤ runLen recs f (nextDate d) := by
      refine ih f (nextDate d) (by omega) (fun k hk => ?_)
      exact hchain (k + 1) (by omega)
    omega

theorem toOrd_addDays_strictMono (d : Date) (m : Nat)
    (hval : ∀ k, k < m → ValidDate (addDays d k)) :
    ∀ i j, i < j → j ≤ m → toOrd (addDays d i) < toOrd (addDays d j) := by
  intro i j
  induction j with
  | zero => omega
  | succ jj ih =>
    intro hij hjm
    have hstep : toOrd (addDays d jj) < toOrd (addDays d (jj + 1)) := by
      rw [addDays_succ]
      exact toOrd_lt_nextDate _ (hval jj (by omega))
    rcases Nat.lt_or_ge i jj with hlt | hge
    · exact lt_trans (ih hlt (by omega)) hstep
    · have : i = jj := by omega
      rw [this]
      exact hstep

/-- Any chain of consecutive dates that are all present in the store
has length at most the number of records. -/
theorem chain_le_length (recs : List (Date × DailyWeather))
    (hvalid : ∀ e ∈ recs, ValidDate e.1) (d : Date) (m : Nat)
    (hchain : ∀ k, k < m → wetAt recs (addDays d k) = true) :
    m ≤ recs.length := by
  classical
  have hval : ∀ k, k < m → ValidDate (addDays d k) := by
    intro k hk
    obtain ⟨e, he, heq⟩ := List.mem_map.mp (wetAt_mem_keys recs _ (hchain k hk))
    exact heq ▸ hvalid e he
  have hmono := toOrd_addDays_strictMono d m hval
  have hinj : Set.InjOn (fun k => addDays d k) ↑(Finset.range m) := by
    intro i hi j hj hij
    simp only [Finset.coe_range, Set.mem_Iio] at hi hj
    rcases lt_trichotomy i j with h | h | h
    · exact absurd (congrArg toOrd hij) (Nat.ne_of_lt (hmono i j h (by omega)))
    · exact h
    · exact absurd (congrArg toOrd hij).symm (Nat.ne_of_lt (hmono j i h (by omega)))
  have hmaps : ∀ k ∈ Finset.range m,
      addDays d k ∈ (recs.map Prod.fst).toFinset := by
    intro k hk
    rw [List.mem_toFinset]
    exact wetAt_mem_keys recs _ (hchain k (Finset.mem_range.mp hk))
  have hcard := Finset.card_le_card_of_injOn _ hmaps hinj
  rw [Finset.card_range] at hcard
  calc m ≤ (recs.map Prod.fst).toFinset.card := hcard
    _ ≤ (recs.map Prod.fst).length := List.toFinset_card_le _
    _ = recs.length := List.length_map _ _

theorem foldl_max_zero_mem (l : List Nat) (h : l ≠ []) : l.foldl max 0 ∈ l := by
  rcases foldl_max_mem l 0 with h0 | hmem
  · cases l with
    | nil => exact absurd rfl h
    | cons x xs =>
      have hx : x ≤ (x :: xs).foldl max 0 :=
        le_foldl_max (x :: xs) 0 x (List.mem_cons_self x xs)
      rw [h0] at hx
      have hx0 : x = 0 := Nat.le_zero.mp hx
      rw [h0, ← hx0]
      exact List.mem_cons_self x xs
  · exact hmem

/-- `HistoricalWeather.contiguous_precipitation`: for every recorded
date, walk forward one day at a time while the next date is present and
precipitating; return the start with the maximal count (Python
`list.index` keeps the first maximal start; `max` over a nonempty list
of naturals is `foldl max 0`). -/
def contiguous_precipitation (hw : HistoricalWeather) : Option (Date × Nat) :=
  if hw.records.map Prod.fst = [] then none
  else
    some ((hw.records.map Prod.fst).getD
        (((hw.records.map Prod.fst).map (runLen hw.records hw.records.length)).indexOf
          (((hw.records.map Prod.fst).map (runLen hw.records hw.records.length)).foldl max 0))
        ⟨0, 0, 0⟩,
      ((hw.records.map Prod.fst).map (runLen hw.records hw.records.length)).foldl max 0)

/-- **C4.** On a non-empty store (of genuine calendar dates),
`contiguous_precipitation` returns a pair `(start, n)` such that the
`n` consecutive dates from `start` are all present and precipitating,
and no chain of consecutive present-and-precipitating dates is longer
than `n`. -/
theorem contiguous_precipitation_spec (hw : HistoricalWeather)
    (hne : hw.records ≠ [])
    (hvalid : ∀ e ∈ hw.records, ValidDate e.1) :
    ∃ start n, contiguous_precipitation hw = some (start, n) ∧
      (∀ k, k < n → wetAt hw.records (addDays start k) = true) ∧
      (∀ d m, (∀ k, k < m → wetAt hw.records (addDays d k) = true) → m ≤ n) := by
  have hkeysne : ¬ (hw.records.map Prod.fst = []) :=
    fun h => hne (List.map_eq_nil_iff.mp h)
  have hcp : contiguous_precipitation hw = some
      ((hw.records.map Prod.fst).getD
        (((hw.records.map Prod.fst).map (runLen hw.records hw.records.length)).indexOf
          (((hw.records.map Prod.fst).map (runLen hw.records hw.records.length)).foldl max 0))
        ⟨0, 0, 0⟩,
      ((hw.records.map Prod.fst).map (runLen hw.records hw.records.length)).foldl max 0) := by
    unfold contiguous_precipitation
    rw [if_neg hkeysne]
  set keys := hw.records.map Prod.fst with hkeys
  set f := runLen hw.records hw.records.length with hf
  set counts := keys.map f with hcounts
  set mx := counts.foldl max 0 with hmx
  set idx := counts.indexOf mx with hidx_def
  set start := keys.getD idx ⟨0, 0, 0⟩ with hstart
  have hcne : counts ≠ [] := by
    rw [hcounts]
    exact fun h => hkeysne (List.map_eq_nil_iff.mp h)
  have hmem : mx ∈ counts := foldl_max_zero_mem counts hcne
  have hidx : idx < counts.length := List.indexOf_lt_length.mpr hmem
  have hidx2 : idx < keys.length := by
    rw [hcounts, List.length_map] at hidx
    exact hidx
  have hstart_get : start = keys[idx] := List.getD_eq_getElem keys ⟨0, 0, 0⟩ hidx2
  have hfstart : f start = mx := by
    have h1 : counts[idx] = mx := List.getElem_indexOf hidx
    simp only [hcounts, List.getElem_map] at h1
    rw [hstart_get]
    exact h1
  refine ⟨start, mx, hcp, ?_, ?_⟩
  · intro k hkm
    rw [← hfstart, hf] at hkm
    exact runLen_wet hw.records _ start k hkm
  · intro d m hchain
    have hm_len : m ≤ hw.records.length :=
      chain_le_length hw.records hvalid d m hchain
    have h1 : m ≤ runLen hw.records hw.records.length d :=
      runLen_ge hw.records m _ d hm_len hchain
    rcases Nat.eq_zero_or_pos m with hm0 | hmpos
    · omega
    · have hd : d ∈ keys := by
        rw [hkeys]
        exact wetAt_mem_keys hw.records d (hchain 0 hmpos)
      have hfd : f d ∈ counts := by
        rw [hcounts]
        exact List.mem_map_of_mem f hd
      have h2 : f d ≤ mx := le_foldl_max counts 0 (f d) hfd
      rw [hf] at h2
      exact le_trans h1 h2

/-- A store with five consecutive precipitating days, 2012-06-04..08. -/
def rainyStore : HistoricalWeather :=
  ⟨"C", (0, 0),
    [(⟨2012, 6, 4⟩, ⟨0, 0, 0, 1, 0, 0⟩), (⟨2012, 6, 5⟩, ⟨0, 0, 0, 2, 0, 0⟩),
     (⟨2012, 6, 6⟩, ⟨0, 0, 0, -1, 0, 0⟩), (⟨2012, 6, 7⟩, ⟨0, 0, 0, 1, 0, 0⟩),
     (⟨2012, 6, 8⟩, ⟨0, 0, 0, 3, 0, 0⟩)]⟩

/-- Witness for C4 on `rainyStore`. -/
theorem contiguous_precipitation_spec_witness :
    ∃ start n, contiguous_precipitation rainyStore = some (start, n) ∧
      (∀ k, k < n → wetAt rainyStore.records (addDays start k) = true) ∧
      (∀ d m, (∀ k, k < m → wetAt rainyStore.records (addDays d k) = true) → m ≤ n) :=
  contiguous_precipitation_spec rainyStore (by decide) (by decide)

/-- The loop of `percentage_snowfall`: running totals
`(total_rainfall, total_snowfall)`, each skipping the trace value `-1`. -/
def precip_totals (hw : HistoricalWeather) : Rat × Rat :=
  hw.records.foldl
    (fun st e =>
      (if e.2.rainfall ≠ -1 then st.1 + e.2.rainfall else st.1,
       if e.2.snowfall ≠ -1 then st.2 + e.2.snowfall else st.2))
    (0, 0)

/-- Sum of `rainfall` over records with `rainfall != -1`. -/
def rainSum (hw : HistoricalWeather) : Rat :=
  ((hw.records.filter (fun e => e.2.rainfall ≠ -1)).map (fun e => e.2.rainfall)).sum

/-- Sum of `snowfall` over records with `snowfall != -1`. -/
def snowSum (hw : HistoricalWeather) : Rat :=
  ((hw.records.filter (fun e => e.2.snowfall ≠ -1)).map (fun e => e.2.snowfall)).sum

/-- `HistoricalWeather.percentage_snowfall`:
`total_snowfall / (total_snowfall + total_rainfall)`; a zero denominator
raises `ZeroDivisionError` in Python, modelled by `none`. -/
def percentage_snowfall (hw : HistoricalWeather) : Option Rat :=
  let st := precip_totals hw
  if st.2 + st.1 = 0 then none else some (st.2 / (st.2 + st.1))

theorem precip_totals_loop (l : List (Date × DailyWeather)) (a b : Rat) :
    l.foldl
      (fun st e =>
        (if e.2.rainfall ≠ -1 then st.1 + e.2.rainfall else st.1,
         if e.2.snowfall ≠ -1 then st.2 + e.2.snowfall else st.2))
      (a, b)
    = (a + ((l.filter (fun e => e.2.rainfall ≠ -1)).map (fun e => e.2.rainfall)).sum,
       b + ((l.filter (fun e => e.2.snowfall ≠ -1)).map (fun e => e.2.snowfall)).sum) := by
  induction l generalizing a b with
  | nil => simp
  | cons x xs ih =>
    rw [List.foldl_cons]
    have step : ((if x.2.rainfall ≠ -1 then (a, b).1 + x.2.rainfall else (a, b).1,
          if x.2.snowfall ≠ -1 then (a, b).2 + x.2.snowfall else (a, b).2) : Rat × Rat)
      = ((if x.2.rainfall ≠ -1 then a + x.2.rainfall else a),
         (if x.2.snowfall ≠ -1 then b + x.2.snowfall else b)) := rfl
    rw [step, ih]
    by_cases hr : x.2.rainfall ≠ -1 <;> by_cases hs : x.2.snowfall ≠ -1 <;>
      simp [List.filter_cons, hr, hs, add_assoc]

theorem precip_totals_eq (hw : HistoricalWeather) :
    precip_totals hw = (rainSum hw, snowSum hw) := by
  rw [precip_totals, precip_totals_loop, rainSum, snowSum, zero_add, zero_add]

theorem percentage_snowfall_eq (hw : HistoricalWeather)
    (h : snowSum hw + rainSum hw ≠ 0) :
    percentage_snowfall hw = some (snowSum hw / (snowSum hw + rainSum hw)) := by
  rw [percentage_snowfall, precip_totals_eq]
  simp [h]

/-- **C5.** With `S` the sum of non-trace snowfall and `R` the sum of
non-trace rainfall, if `S + R ≠ 0` then `percentage_snowfall` returns
exactly `S / (S + R)`. -/
theorem percentage_snowfall_spec (hw : HistoricalWeather)
    (h : snowSum hw + rainSum hw ≠ 0) :
    percentage_snowfall hw = some (snowSum hw / (snowSum hw + rainSum hw)) :=
  percentage_snowfall_eq hw h

/-- A one-record store: snowfall 2 cm, rainfall 3 mm (precipitation 5). -/
def snowStore : HistoricalWeather :=
  ⟨"C", (0, 0), [(⟨2020, 5, 1⟩, ⟨0, 0, 0, 5, 3, 2⟩)]⟩

/-- Witness for C5: one record with snowfall 2, rainfall 3 gives 2/5. -/
theorem percentage_snowfall_spec_witness :
    percentage_snowfall snowStore
        = some (snowSum snowStore / (snowSum snowStore + rainSum snowStore)) ∧
      snowSum snowStore / (snowSum snowStore + rainSum snowStore) = 2 / 5 := by
  have hs : snowSum snowStore = 2 := by
    norm_num [snowSum, snowStore, List.filter_cons]
  have hr : rainSum snowStore = 3 := by
    norm_num [rainSum, snowStore, List.filter_cons]
  constructor
  · exact percentage_snowfall_spec snowStore (by rw [hs, hr]; norm_num)
  · rw [hs, hr]; norm_num

/-- Per-country store (class `Country`). `histories` models the private
dict `_histories` as an association list in insertion order. -/
structure Country where
  name : String
  histories : List (String × HistoricalWeather)
deriving DecidableEq, Repr

/-- The loop of `snowiest_location`: thread the running
`(highest_snowfall_location, highest_snowfall_percentage)` through the
locations; a location whose `percentage_snowfall` raises
`ZeroDivisionError` aborts the whole call (`Except.error`).  The update
uses `>=`, so later locations win ties. -/
def snowiestLoop :
    List (String × HistoricalWeather) → String × Rat → Except Unit (String × Rat)
  | [], best => Except.ok best
  | e :: rest, best =>
    match percentage_snowfall e.2 with
    | none => Except.error ()
    | some p => snowiestLoop rest (if p ≥ best.2 then (e.1, p) else best)

/-- `Country.snowiest_location`: `(None, None)` on an empty country,
otherwise the scan starting from `('', 0.0)`. -/
def snowiest_location (c : Country) : Except Unit (Option (String × Rat)) :=
  if c.histories = [] then Except.ok none
  else
    match snowiestLoop c.histories ("", 0) with
    | Except.error e => Except.error e
    | Except.ok best => Except.ok (some best)

/-- The documented shape of the precipitation-family fields: a
measurement (`>= 0`) or the trace sentinel `-1`. -/
def WellFormedPrecip (w : DailyWeather) : Prop :=
  (w.rainfall = -1 ∨ 0 ≤ w.rainfall) ∧ (w.snowfall = -1 ∨ 0 ≤ w.snowfall)

instance : DecidablePred WellFormedPrecip := fun _ => by
  unfold WellFormedPrecip; infer_instance

/-- The documented precondition of `percentage_snowfall`: some recorded
day has `snowfall > 0` or `rainfall > 0`. -/
def SnowfallPrecondition (hw : HistoricalWeather) : Prop :=
  ∃ e ∈ hw.records, 0 < e.2.snowfall ∨ 0 < e.2.rainfall

instance : DecidablePred SnowfallPrecondition := fun _ => by
  unfold SnowfallPrecondition; infer_instance

theorem rainSum_nonneg (hw : HistoricalWeather)
    (hwf : ∀ e ∈ hw.records, WellFormedPrecip e.2) : 0 ≤ rainSum hw := by
  refine List.sum_nonneg ?_
  intro x hx
  obtain ⟨e, he, rfl⟩ := List.mem_map.mp hx
  obtain ⟨he1, he2⟩ := List.mem_filter.mp he
  rcases (hwf e he1).1 with h | h
  · exact absurd h (by simpa using he2)
  · exact h

theorem snowSum_nonneg (hw : HistoricalWeather)
    (hwf : ∀ e ∈ hw.records, WellFormedPrecip e.2) : 0 ≤ snowSum hw := by
  refine List.sum_nonneg ?_
  intro x hx
  obtain ⟨e, he, rfl⟩ := List.mem_map.mp hx
  obtain ⟨he1, he2⟩ := List.mem_filter.mp he
  rcases (hwf e he1).2 with h | h
  · exact absurd h (by simpa using he2)
  · exact h

/-- Under the documented field shape, the `percentage_snowfall`
precondition makes the denominator positive, so the result is defined
and non-negative. -/
theorem percentage_snowfall_defined (hw : HistoricalWeather)
    (hwf : ∀ e ∈ hw.records, WellFormedPrecip e.2)
    (hpre : SnowfallPrecondition hw) :
    ∃ p, percentage_snowfall hw = some p ∧ 0 ≤ p := by
  have hr := rainSum_nonneg hw hwf
  have hs := snowSum_nonneg hw hwf
  have hpos : 0 < snowSum hw + rainSum hw := by
    obtain ⟨e, he, hor⟩ := hpre
    rcases hor with h | h
    · have hne : e.2.snowfall ≠ -1 := by intro hc; rw [hc] at h; norm_num at h
      have hmem : e.2.snowfall ∈ (hw.records.filter
          (fun e => e.2.snowfall ≠ -1)).map (fun e => e.2.snowfall) :=
        List.mem_map_of_mem _ (List.mem_filter.mpr ⟨he, by simpa using hne⟩)
      have hle : e.2.snowfall ≤ snowSum hw := by
        refine List.single_le_sum ?_ _ hmem
        intro x hx
        obtain ⟨e', he', rfl⟩ := List.mem_map.mp hx
        obtain ⟨he1, he2⟩ := List.mem_filter.mp he'
        rcases (hwf e' he1).2 with hh | hh
        · exact absurd hh (by simpa using he2)
        · exact hh
      have : 0 < snowSum hw := lt_of_lt_of_le h hle
      linarith
    · have hne : e.2.rainfall ≠ -1 := by intro hc; rw [hc] at h; norm_num at h
      have hmem : e.2.rainfall ∈ (hw.records.filter
          (fun e => e.2.rainfall ≠ -1)).map (fun e => e.2.rainfall) :=
        List.mem_map_of_mem _ (List.mem_filter.mpr ⟨he, by simpa using hne⟩)
      have hle : e.2.rainfall ≤ rainSum hw := by
        refine List.single_le_sum ?_ _ hmem
        intro x hx
        obtain ⟨e', he', rfl⟩ := List.mem_map.mp hx
        obtain ⟨he1, he2⟩ := List.mem_filter.mp he'
        rcases (hwf e' he1).1 with hh | hh
        · exact absurd hh (by simpa using he2)
        · exact hh
      have : 0 < rainSum hw := lt_of_lt_of_le h hle
      linarith
  refine ⟨snowSum hw / (snowSum hw + rainSum hw),
    percentage_snowfall_eq hw (ne_of_gt hpos), ?_⟩
  exact div_nonneg hs (le_of_lt hpos)

theorem snowiestLoop_spec (l : List (String × HistoricalWeather))
    (hl : ∀ e ∈ l, ∃ p, percentage_snowfall e.2 = some p ∧ 0 ≤ p) :
    ∀ best : String × Rat, 0 ≤ best.2 →
      ∃ r, snowiestLoop l best = Except.ok r ∧ 0 ≤ r.2 ∧
        (r = best ∨ ∃ e ∈ l, r.1 = e.1 ∧ percentage_snowfall e.2 = some r.2) ∧
        best.2 ≤ r.2 ∧
        (∀ e ∈ l, ∀ p, percentage_snowfall e.2 = some p → p ≤ r.2) := by
  induction l with
  | nil =>
    intro best hb
    exact ⟨best, rfl, hb, Or.inl rfl, le_refl _, by simp⟩
  | cons e rest ih =>
    intro best hb
    obtain ⟨p, hp, hp0⟩ := hl e (List.mem_cons_self e rest)
    have hlrest : ∀ e' ∈ rest, ∃ q, percentage_snowfall e'.2 = some q ∧ 0 ≤ q :=
      fun e' he' => hl e' (List.mem_cons_of_mem e he')
    by_cases hcmp : p ≥ best.2
    · obtain ⟨r, hr, hr0, hrsrc, hrge, hrmax⟩ := ih hlrest (e.1, p) hp0
      refine ⟨r, ?_, hr0, ?_, ?_, ?_⟩
      · simp only [snowiestLoop, hp, if_pos hcmp]
        exact hr
      · rcases hrsrc with h | ⟨e', he', h1, h2⟩
        · exact Or.inr ⟨e, List.mem_cons_self e rest, by rw [h], by rw [h]; exact hp⟩
        · exact Or.inr ⟨e', List.mem_cons_of_mem e he', h1, h2⟩
      · exact le_trans hcmp hrge
      · intro e' he' q hq
        rcases List.mem_cons.mp he' with h | h
        · rw [h, hp] at hq
          cases hq
          exact hrge
        · exact hrmax e' h q hq
    · push_neg at hcmp
      obtain ⟨r, hr, hr0, hrsrc, hrge, hrmax⟩ := ih hlrest best hb
      refine ⟨r, ?_, hr0, ?_, hrge, ?_⟩
      · simp only [snowiestLoop, hp, if_neg (not_le.mpr hcmp)]
        exact hr
      · rcases hrsrc with h | ⟨e', he', h1, h2⟩
        · exact Or.inl h
        · exact Or.inr ⟨e', List.mem_cons_of_mem e he', h1, h2⟩
      · intro e' he' q hq
        rcases List.mem_cons.mp he' with h | h
        · rw [h, hp] at hq
          cases hq
          exact le_trans (le_of_lt hcmp) hrge
        · exact hrmax e' h q hq

/-- **C6.** On an empty country `snowiest_location` returns the absent
pair; on a non-empty country whose locations all satisfy the documented
field shape and the `percentage_snowfall` precondition, it returns a
contained location together with its `percentage_snowfall`, maximal
among all contained locations. -/
theorem snowiest_location_spec (c : Country)
    (hwf : ∀ e ∈ c.histories,
      (∀ r ∈ e.2.records, WellFormedPrecip r.2) ∧ SnowfallPrecondition e.2) :
    (c.histories = [] → snowiest_location c = Except.ok none) ∧
    (c.histories ≠ [] →
      ∃ nm p, snowiest_location c = Except.ok (some (nm, p)) ∧
        (∃ e ∈ c.histories, nm = e.1 ∧ percentage_snowfall e.2 = some p) ∧
        (∀ e ∈ c.histories, ∀ q, percentage_snowfall e.2 = some q → q ≤ p)) := by
  have hl : ∀ e ∈ c.histories, ∃ p, percentage_snowfall e.2 = some p ∧ 0 ≤ p :=
    fun e he => percentage_snowfall_defined e.2 (hwf e he).1 (hwf e he).2
  constructor
  · intro h
    simp [snowiest_location, h]
  · intro hne
    cases hlist : c.histories with
    | nil => exact absurd hlist hne
    | cons e0 rest =>
      have he0 : e0 ∈ c.histories := by rw [hlist]; exact List.mem_cons_self e0 rest
      obtain ⟨p0, hp0, hp00⟩ := hl e0 he0
      have hlrest : ∀ e' ∈ rest, ∃ q, percentage_snowfall e'.2 = some q ∧ 0 ≤ q :=
        fun e' he' => hl e' (by rw [hlist]; exact List.mem_cons_of_mem e0 he')
      obtain ⟨r, hr, hr0, hrsrc, hrge, hrmax⟩ := snowiestLoop_spec rest hlrest (e0.1, p0) hp00
      have hstep : snowiestLoop c.histories ("", 0) = Except.ok r := by
        rw [hlist]
        simp only [snowiestLoop, hp0, if_pos (show p0 ≥ (("", (0 : Rat))).2 from hp00)]
        exact hr
      refine ⟨r.1, r.2, ?_, ?_, ?_⟩
      · unfold snowiest_location
        rw [if_neg hne, hstep]
      · rcases hrsrc with h | ⟨e', he', h1, h2⟩
        · exact ⟨e0, List.mem_cons_self e0 rest, by rw [h], by rw [h]; exact hp0⟩
        · exact ⟨e', List.mem_cons_of_mem e0 he', h1, h2⟩
      · intro e' he' q hq
        rcases List.mem_cons.mp he' with h | h
        · rw [h, hp0] at hq
          cases hq
          exact hrge
        · exact hrmax e' h q hq

/-- A two-location country: YYZ with snow 3 / rain 2, MTL with
snow 2 / rain 2. -/
def sampleCountry : Country :=
  ⟨"Canada",
    [("YYZ", ⟨"YYZ", (0, 0), [(⟨2020, 1, 1⟩, ⟨0, 0, 0, 5, 2, 3⟩)]⟩),
     ("MTL", ⟨"MTL", (0, 0), [(⟨2020, 1, 1⟩, ⟨0, 0, 0, 4, 2, 2⟩)]⟩)]⟩

/-- Witness for C6 on `sampleCountry`. -/
theorem snowiest_location_spec_witness :
    ∃ nm p, snowiest_location sampleCountry = Except.ok (some (nm, p)) ∧
      (∃ e ∈ sampleCountry.histories, nm = e.1 ∧ percentage_snowfall e.2 = some p) ∧
      (∀ e ∈ sampleCountry.histories, ∀ q,
        percentage_snowfall e.2 = some q → q ≤ p) :=
  (snowiest_location_spec sampleCountry (by decide)).2 (by decide)

/-- **C7.** Inserting at a fresh date makes that exact record retrievable;
a second insertion at an occupied date has no effect at all (the store is
unchanged, hence the original record is still returned), and no error is
raised (`add_weather` is total). -/
theorem add_retrieve_weather_spec (hw : HistoricalWeather) (d : Date)
    (w w' : DailyWeather) :
    (retrieve_weather hw d = none →
      retrieve_weather (add_weather hw d w) d = some w) ∧
    (∀ w₀, retrieve_weather hw d = some w₀ →
      add_weather hw d w' = hw ∧
      retrieve_weather (add_weather hw d w') d = some w₀) := by
  constructor
  · intro h
    have hc : ¬ (hw.records.map Prod.fst).contains d :=
      (lookupRec_eq_none_iff _ _).mp h
    simp only [add_weather, if_neg hc, retrieve_weather]
    rw [lookupRec_append]
    simp only [retrieve_weather] at h
    rw [h]
    simp [lookupRec]
  · intro w₀ h
    have hc : (hw.records.map Prod.fst).contains d := by
      by_contra hc
      rw [← lookupRec_eq_none_iff] at hc
      simp [retrieve_weather, hc] at h
    constructor
    · simp only [add_weather, if_pos hc]
    · simp only [add_weather, if_pos hc]
      exact h

/-- Witness for C7 at a concrete store, date and records. -/
theorem add_retrieve_weather_spec_witness :
    (retrieve_weather (add_weather ⟨"Toronto", (437/10, -794/10), []⟩
        ⟨2020, 1, 12⟩ ⟨1, 2, 3, 4, 2, 2⟩) ⟨2020, 1, 12⟩ = some ⟨1, 2, 3, 4, 2, 2⟩) ∧
    (add_weather (add_weather ⟨"Toronto", (437/10, -794/10), []⟩
        ⟨2020, 1, 12⟩ ⟨1, 2, 3, 4, 2, 2⟩) ⟨2020, 1, 12⟩ ⟨9, 9, 9, 9, 9, 9⟩ =
      add_weather ⟨"Toronto", (437/10, -794/10), []⟩ ⟨2020, 1, 12⟩ ⟨1, 2, 3, 4, 2, 2⟩) := by
  refine ⟨?_, ?_⟩
  · exact (add_retrieve_weather_spec ⟨"Toronto", (437/10, -794/10), []⟩
      ⟨2020, 1, 12⟩ ⟨1, 2, 3, 4, 2, 2⟩ ⟨9, 9, 9, 9, 9, 9⟩).1 (by decide)
  · exact ((add_retrieve_weather_spec
      (add_weather ⟨"Toronto", (437/10, -794/10), []⟩ ⟨2020, 1, 12⟩ ⟨1, 2, 3, 4, 2, 2⟩)
      ⟨2020, 1, 12⟩ ⟨1, 2, 3, 4, 2, 2⟩ ⟨9, 9, 9, 9, 9, 9⟩).2 ⟨1, 2, 3, 4, 2, 2⟩ (by decide)).1

/-! ### Ingestion (`load_data`)

The ingestion routine is modelled on the row level: the caller hands
`load_data` the list of rows, each row the list of comma-separated
string fields of one line (the line splitting in the source is direct).
Python exceptions escaping `load_data` are modelled as `Except.error`:
an out-of-range column access raises `IndexError`, which the
`except ValueError` handler does NOT catch, and an invalid
year/month/day triple makes the `date` constructor raise `ValueError`
outside the `try` block. -/

/-- Column indices used by `load_data` (module constants). -/
def LONG : Nat := 0
def LAT : Nat := 1
def STN_NAME : Nat := 2
def YEAR : Nat := 5
def MONTH : Nat := 6
def DAY : Nat := 7
def MAX_TEMP : Nat := 9
def MIN_TEMP : Nat := 11
def MEAN_TEMP : Nat := 13
def TOTAL_RAIN : Nat := 19
def TOTAL_RAIN_FLAG : Nat := 20
def TOTAL_SNOW : Nat := 21
def TOTAL_SNOW_FLAG : Nat := 22
def TOTAL_PRECIP : Nat := 23
def TOTAL_PRECIP_FLAG : Nat := 24

/-- An uncaught Python exception escaping `load_data`. -/
inductive PyErr where
  | indexError
  | valueError
deriving DecidableEq, Repr

def digitsVal (cs : List Char) : Nat :=
  cs.foldl (fun n c => n * 10 + (c.toNat - 48)) 0

def allDigits (cs : List Char) : Bool :=
  cs.all (fun c => c.isDigit)

/-- Unsigned part of a Python `float` literal: digits with at most one
decimal point, at least one digit.  Returns numerator and denominator. -/
def parseUnsigned (cs : List Char) : Option (Nat × Nat) :=
  let intPart := cs.takeWhile (fun c => c ≠ '.')
  match cs.dropWhile (fun c => c ≠ '.') with
  | [] =>
    if !intPart.isEmpty && allDigits intPart
    then some (digitsVal intPart, 1) else none
  | _ :: frac =>
    if frac.contains '.' then none
    else if (!intPart.isEmpty || !frac.isEmpty)
        && allDigits intPart && allDigits frac
    then some (digitsVal intPart * 10 ^ frac.length + digitsVal frac, 10 ^ frac.length)
    else none

/-- Model of CPython `float(s)` on plain decimal literals (an optional
sign, digits, at most one decimal point); `none` models `ValueError`. -/
def parseFloat (s : String) : Option Rat :=
  match s.toList with
  | '-' :: rest => (parseUnsigned rest).map (fun p => mkRat (-(p.1 : Int)) p.2)
  | '+' :: rest => (parseUnsigned rest).map (fun p => mkRat (p.1 : Int) p.2)
  | _ => (parseUnsigned s.toList).map (fun p => mkRat (p.1 : Int) p.2)

/-- Model of CPython `int(s)` on plain decimal literals; `none` models
`ValueError`. -/
def parseIntStr (s : String) : Option Int :=
  match s.toList with
  | '-' :: rest =>
    if !rest.isEmpty && allDigits rest then some (-(digitsVal rest : Int)) else none
  | '+' :: rest =>
    if !rest.isEmpty && allDigits rest then some ((digitsVal rest : Int)) else none
  | cs =>
    if !cs.isEmpty && allDigits cs then some ((digitsVal cs : Int)) else none

/-- `row[i]`: raises `IndexError` when `i` is out of range. -/
def getField (row : List String) (i : Nat) : Except PyErr String :=
  match row.get? i with
  | some s => Except.ok s
  | none => Except.error PyErr.indexError

/-- `float(row[i])`: `IndexError` out of range, `ValueError` on a
non-numeric field. -/
def getFloat (row : List String) (i : Nat) : Except PyErr Rat := do
  let s ← getField row i
  match parseFloat s with
  | some v => Except.ok v
  | none => Except.error PyErr.valueError

/-- `int(row[i])`. -/
def getInt (row : List String) (i : Nat) : Except PyErr Int := do
  let s ← getField row i
  match parseIntStr s with
  | some v => Except.ok v
  | none => Except.error PyErr.valueError

/-- The fields of one row after the validation loop converted them. -/
structure ParsedRow where
  long : Rat
  lat : Rat
  stn_name : String
  year : Int
  month : Int
  day : Int
  mean_temp : Rat
  min_temp : Rat
  max_temp : Rat
  total_precip : Rat
  total_rain : Rat
  total_snow : Rat
deriving DecidableEq, Repr

/-- The `try` block of `load_data` for one row, accesses in source
order: `float` / `int` conversions of the coordinate, temperature and
date columns, then each precipitation-family column, recorded as `-1`
when its flag field is the literal `"T"`.  A missing column raises
`IndexError` (not caught); a failed conversion raises `ValueError`
(caught by the caller: the row is dropped).  The station name (column
2) is read by the construction phase only from rows that already passed
the column-24 access, so reading it here last preserves behaviour. -/
def parseRow (row : List String) : Except PyErr ParsedRow := do
  let long ← getFloat row LONG
  let lat ← getFloat row LAT
  let meanT ← getFloat row MEAN_TEMP
  let maxT ← getFloat row MAX_TEMP
  let minT ← getFloat row MIN_TEMP
  let y ← getInt row YEAR
  let mo ← getInt row MONTH
  let dy ← getInt row DAY
  let pFlag ← getField row TOTAL_PRECIP_FLAG
  let precip ← if pFlag = "T" then Except.ok (-1 : Rat) else getFloat row TOTAL_PRECIP
  let sFlag ← getField row TOTAL_SNOW_FLAG
  let snow ← if sFlag = "T" then Except.ok (-1 : Rat) else getFloat row TOTAL_SNOW
  let rFlag ← getField row TOTAL_RAIN_FLAG
  let rain ← if rFlag = "T" then Except.ok (-1 : Rat) else getFloat row TOTAL_RAIN
  let stn ← getField row STN_NAME
  Except.ok ⟨long, lat, stn, y, mo, dy, meanT, minT, maxT, precip, rain, snow⟩

/-- The validation loop plus `_delete_specified_rows`: rows whose
conversion raised `ValueError` are dropped; an `IndexError` aborts
`load_data`. -/
def filterRows : List (List String) → Except PyErr (List ParsedRow)
  | [] => Except.ok []
  | r :: rs =>
    match parseRow r with
    | Except.ok pr =>
      match filterRows rs with
      | Except.ok rest => Except.ok (pr :: rest)
      | Except.error e => Except.error e
    | Except.error PyErr.valueError => filterRows rs
    | Except.error PyErr.indexError => Except.error PyErr.indexError

/-- The rows that survive filtering, as a pure function. -/
def acceptedRows (rows : List (List String)) : List ParsedRow :=
  rows.filterMap (fun r => (parseRow r).toOption)

/-- Python's `date(y, m, d)` constructor: `None` models the
`ValueError` it raises on an invalid triple. -/
def mkDate (y mo dy : Int) : Option Date :=
  if 1 ≤ y ∧ y ≤ 9999 ∧ 1 ≤ mo ∧ mo ≤ 12 ∧ 1 ≤ dy ∧
      dy ≤ daysInMonth y.toNat mo.toNat
  then some ⟨y.toNat, mo.toNat, dy.toNat⟩ else none

/-- The `DailyWeather(...)` construction of the loading loop. -/
def mkDailyWeather (pr : ParsedRow) : DailyWeather :=
  ⟨pr.mean_temp, pr.min_temp, pr.max_temp, pr.total_precip, pr.total_rain, pr.total_snow⟩

/-- The loading loop: construct each row's date (an invalid date raises
`ValueError`, now outside the `try`) and `add_weather` it. -/
def buildRecord : HistoricalWeather → List ParsedRow → Except PyErr HistoricalWeather
  | hw, [] => Except.ok hw
  | hw, pr :: rest =>
    match mkDate pr.year pr.month pr.day with
    | none => Except.error PyErr.valueError
    | some dt => buildRecord (add_weather hw dt (mkDailyWeather pr)) rest

/-- The part of `load_data` after filtering: `None` when no rows
remain, otherwise a `HistoricalWeather` named from the first surviving
row with coordinates `(latitude, longitude)`. -/
def buildPhase : List ParsedRow → Except PyErr (Option HistoricalWeather)
  | [] => Except.ok none
  | first :: rest =>
    match buildRecord ⟨first.stn_name, (first.lat, first.long), []⟩ (first :: rest) with
    | Except.error e => Except.error e
    | Except.ok hw => Except.ok (some hw)

/-- `load_data`, at the row level. -/
def load_data (rows : List (List String)) : Except PyErr (Option HistoricalWeather) :=
  match filterRows rows with
  | Except.error e => Except.error e
  | Except.ok kept => buildPhase kept

/-- The row neither parses fully nor fails with a caught `ValueError`:
every column access it performs is in range. -/
def rowNoIndexErr (r : List String) : Bool :=
  match parseRow r with
  | Except.error PyErr.indexError => false
  | _ => true

/-- If the row parses, its date triple is accepted by `date(...)`. -/
def rowDateOk (r : List String) : Bool :=
  match parseRow r with
  | Except.ok pr => (mkDate pr.year pr.month pr.day).isSome
  | Except.error _ => true

/-- A realistic header line of an Environment Canada climate CSV. -/
def stdHeader : List String :=
  ["Longitude (x)", "Latitude (y)", "Station Name", "Climate ID", "Date/Time",
   "Year", "Month", "Day", "Data Quality", "Max Temp (C)", "Max Temp Flag",
   "Min Temp (C)", "Min Temp Flag", "Mean Temp (C)", "Mean Temp Flag",
   "Heat Deg Days (C)", "Heat Deg Days Flag", "Cool Deg Days (C)",
   "Cool Deg Days Flag", "Total Rain (mm)", "Total Rain Flag",
   "Total Snow (cm)", "Total Snow Flag", "Total Precip (mm)",
   "Total Precip Flag", "Snow on Grnd (cm)", "Snow on Grnd Flag",
   "Dir of Max Gust (10s deg)", "Dir of Max Gust Flag",
   "Spd of Max Gust (km/h)", "Spd of Max Gust Flag"]

/-- A well-formed data row: 2020-06-04, mean 20.0, min 10.5, max 30.0,
rain 3.0, snow 2.0, and a trace-flagged total precipitation. -/
def goodRow : List String :=
  ["-79.0", "43.5", "STN A", "6158355", "2020-06-04", "2020", "6", "4", "ok",
   "30.0", "", "10.5", "", "20.0", "", "8.0", "", "0.0", "",
   "3.0", "", "2.0", "", "5.5", "T", "0.0", "", "", "", "", ""]

/-- A row whose numeric fields all parse but whose month field is 13:
the `date` constructor raises an uncaught `ValueError`. -/
def badDateRow : List String :=
  ["-79.0", "43.5", "STN A", "6158355", "2020-13-01", "2020", "13", "1", "ok",
   "30.0", "", "10.5", "", "20.0", "", "8.0", "", "0.0", "",
   "3.0", "", "2.0", "", "5.5", "", "0.0", "", "", "", "", ""]

/-- A row with a non-numeric max-temperature field `"M"`: dropped. -/
def badTempRow : List String :=
  ["-79.0", "43.5", "STN A", "6158355", "2020-06-05", "2020", "6", "5", "ok",
   "M", "", "10.5", "", "20.0", "", "8.0", "", "0.0", "",
   "3.0", "", "2.0", "", "5.5", "", "0.0", "", "", "", "", ""]

/-- When no row hits an uncaught `IndexError`, filtering completes and
keeps exactly the rows that parse. -/
theorem filterRows_eq (rows : List (List String))
    (h : ∀ r ∈ rows, rowNoIndexErr r = true) :
    filterRows rows = Except.ok (acceptedRows rows) := by
  induction rows with
  | nil => rfl
  | cons r rs ih =>
    have hr := h r (List.mem_cons_self r rs)
    have hrest := ih (fun r' h' => h r' (List.mem_cons_of_mem r h'))
    cases hp : parseRow r with
    | ok pr =>
      simp [filterRows, hp, hrest, acceptedRows, List.filterMap_cons, Except.toOption]
    | error e =>
      cases e with
      | indexError => rw [rowNoIndexErr, hp] at hr; cases hr
      | valueError =>
        simp [filterRows, hp, hrest, acceptedRows, List.filterMap_cons, Except.toOption]

/-- If filtering completed, it returned exactly the accepted rows. -/
theorem filterRows_ok (rows : List (List String)) (l : List ParsedRow)
    (h : filterRows rows = Except.ok l) : l = acceptedRows rows := by
  induction rows generalizing l with
  | nil =>
    cases h
    rfl
  | cons r rs ih =>
    cases hp : parseRow r with
    | ok pr =>
      rw [filterRows, hp] at h
      cases hrest : filterRows rs with
      | ok rest =>
        rw [hrest] at h
        cases h
        simp [acceptedRows, List.filterMap_cons, hp, Except.toOption, ih rest hrest]
      | error e => rw [hrest] at h; cases h
    | error e =>
      cases e with
      | indexError => rw [filterRows, hp] at h; cases h
      | valueError =>
        rw [filterRows, hp] at h
        simp [acceptedRows, List.filterMap_cons, hp, Except.toOption, ih l h]

/-- `buildRecord` never fails when every row's date triple is valid. -/
theorem buildRecord_total (l : List ParsedRow) :
    ∀ hw : HistoricalWeather,
      (∀ pr ∈ l, (mkDate pr.year pr.month pr.day).isSome) →
      ∃ hw', buildRecord hw l = Except.ok hw' := by
  induction l with
  | nil => exact fun hw _ => ⟨hw, rfl⟩
  | cons pr rest ih =>
    intro hw hv
    obtain ⟨dt, hdt⟩ := Option.isSome_iff_exists.mp (hv pr (List.mem_cons_self pr rest))
    simp only [buildRecord, hdt]
    exact ih _ (fun pr' h' => hv pr' (List.mem_cons_of_mem pr h'))

/-- **C1 (amended).** Rows that fail numeric conversion are silently
dropped and do not appear in the result; and provided no row performs
an out-of-range column access (e.g. every row has the full column
count) and every surviving row's year/month/day triple is a valid
calendar date, `load_data` returns a result — a `HistoricalWeather` or
the absent marker — for every input. -/
theorem load_data_total (rows : List (List String))
    (h1 : ∀ r ∈ rows, rowNoIndexErr r = true)
    (h2 : ∀ r ∈ rows, rowDateOk r = true) :
    filterRows rows = Except.ok (acceptedRows rows) ∧
    ∃ res, load_data rows = Except.ok res := by
  have hf := filterRows_eq rows h1
  refine ⟨hf, ?_⟩
  have hacc : ∀ pr ∈ acceptedRows rows, (mkDate pr.year pr.month pr.day).isSome := by
    intro pr hpr
    obtain ⟨r, hr, hpr2⟩ := List.mem_filterMap.mp hpr
    cases hp : parseRow r with
    | ok pr' =>
      rw [hp] at hpr2
      cases hpr2
      have := h2 r hr
      rw [rowDateOk, hp] at this
      exact this
    | error e =>
      rw [hp] at hpr2
      cases hpr2
  have hld : load_data rows = buildPhase (acceptedRows rows) := by
    rw [load_data, hf]
  cases hacc0 : acceptedRows rows with
  | nil =>
    refine ⟨none, ?_⟩
    rw [hld, hacc0]
    rfl
  | cons first rest =>
    rw [hacc0] at hacc
    obtain ⟨hw', hbw⟩ := buildRecord_total (first :: rest)
      ⟨first.stn_name, (first.lat, first.long), []⟩ hacc
    refine ⟨some hw', ?_⟩
    rw [hld, hacc0]
    simp only [buildPhase, hbw]

/-- The claim C1 as frozen is false: on this single row every numeric
field parses (so nothing is discarded) but the month field is 13, and
`load_data` raises an uncaught `ValueError` from the `date` constructor
instead of returning a result. -/
theorem load_data_crash_cex :
    load_data [badDateRow] = Except.error PyErr.valueError := rfl

/-- Witness for C1 (amended): one malformed-temperature row is dropped,
one good row survives, and `load_data` returns a result. -/
theorem load_data_total_witness :
    filterRows [badTempRow, goodRow] =
      Except.ok (acceptedRows [badTempRow, goodRow]) ∧
    ∃ res, load_data [badTempRow, goodRow] = Except.ok res :=
  load_data_total [badTempRow, goodRow] (by decide) (by decide)

/-- **C8.** `load_data` returns the absent marker exactly when no rows
survive filtering (given that no row aborts the filtering loop with an
uncaught `IndexError`); the header row goes through the same filter and
is dropped because its fields fail numeric parsing, so a header-only or
empty input yields the absent marker. -/
theorem load_data_none_iff (rows : List (List String))
    (h1 : ∀ r ∈ rows, rowNoIndexErr r = true) :
    (load_data rows = Except.ok none ↔ acceptedRows rows = []) ∧
    parseRow stdHeader = Except.error PyErr.valueError ∧
    load_data [stdHeader] = Except.ok none ∧
    load_data [] = Except.ok none := by
  refine ⟨?_, rfl, rfl, rfl⟩
  have hld : load_data rows = buildPhase (acceptedRows rows) := by
    rw [load_data, filterRows_eq rows h1]
  constructor
  · intro h
    rw [hld] at h
    cases hacc : acceptedRows rows with
    | nil => rfl
    | cons a l =>
      rw [hacc] at h
      cases hbr : buildRecord ⟨a.stn_name, (a.lat, a.long), []⟩ (a :: l) with
      | ok hw => simp [buildPhase, hbr] at h
      | error e => simp [buildPhase, hbr] at h
  · intro h
    rw [hld, h]
    rfl

/-- Witness for C8: the header-only input satisfies the hypothesis and
yields the absent marker. -/
theorem load_data_none_iff_witness :
    (load_data [stdHeader] = Except.ok none ↔ acceptedRows [stdHeader] = []) ∧
    parseRow stdHeader = Except.error PyErr.valueError ∧
    load_data [stdHeader] = Except.ok none ∧
    load_data [] = Except.ok none :=
  load_data_none_iff [stdHeader] (by decide)

theorem lookupRec_append_of_some (l₁ l₂ : List (Date × DailyWeather))
    (d : Date) (w : DailyWeather) (h : lookupRec l₁ d = some w) :
    lookupRec (l₁ ++ l₂) d = some w := by
  rw [lookupRec_append, h]

theorem lookupRec_append_of_none (l₁ l₂ : List (Date × DailyWeather))
    (d : Date) (h : lookupRec l₁ d = none) :
    lookupRec (l₁ ++ l₂) d = lookupRec l₂ d := by
  rw [lookupRec_append, h]

/-- First-occurrence lookup among the rows that will be inserted:
the record of the first row whose constructed date is `dt`. -/
def specLookup (l : List ParsedRow) (dt : Date) : Option DailyWeather :=
  (l.find? (fun pr => mkDate pr.year pr.month pr.day == some dt)).map mkDailyWeather

/-- Inserting the parsed rows in order on top of `hw` yields, for each
date, the record already in `hw` if any (duplicates are skipped),
otherwise the first inserted row with that date. -/
theorem buildRecord_lookup (l : List ParsedRow) :
    ∀ (hw hw' : HistoricalWeather), buildRecord hw l = Except.ok hw' →
    ∀ dt : Date, lookupRec hw'.records dt =
      match lookupRec hw.records dt with
      | some w => some w
      | none => specLookup l dt := by
  induction l with
  | nil =>
    intro hw hw' h dt
    cases h
    cases hlk : lookupRec hw.records dt <;> simp [specLookup, hlk]
  | cons pr rest ih =>
    intro hw hw' h dt
    cases hdt0 : mkDate pr.year pr.month pr.day with
    | none => rw [buildRecord, hdt0] at h; cases h
    | some dt0 =>
      rw [buildRecord, hdt0] at h
      have hrec := ih _ hw' h dt
      rw [hrec]
      by_cases hco : (hw.records.map Prod.fst).contains dt0
      · have hadd : add_weather hw dt0 (mkDailyWeather pr) = hw := by
          rw [add_weather, if_pos hco]
        rw [hadd]
        cases hlk : lookupRec hw.records dt with
        | some w => rfl
        | none =>
          have hne : dt0 ≠ dt := by
            intro hc
            rw [← hc] at hlk
            exact absurd hco ((lookupRec_eq_none_iff _ _).mp hlk)
          have hp : ¬ ((mkDate pr.year pr.month pr.day == some dt) = true) := by
            rw [hdt0]
            simp [hne]
          have hfind : List.find?
                (fun pr' : ParsedRow => mkDate pr'.year pr'.month pr'.day == some dt)
                (pr :: rest)
              = List.find?
                (fun pr' : ParsedRow => mkDate pr'.year pr'.month pr'.day == some dt)
                rest :=
            List.find?_cons_of_neg _ hp
          simp only [specLookup]
          rw [hfind]
      · have hadd : add_weather hw dt0 (mkDailyWeather pr)
            = ⟨hw.name, hw.coordinates, hw.records ++ [(dt0, mkDailyWeather pr)]⟩ := by
          rw [add_weather, if_neg hco]
        rw [hadd]
        cases hlk : lookupRec hw.records dt with
        | some w =>
          have happ := lookupRec_append_of_some hw.records
            [(dt0, mkDailyWeather pr)] dt w hlk
          simp only [happ]
        | none =>
          have happ := lookupRec_append_of_none hw.records
            [(dt0, mkDailyWeather pr)] dt hlk
          simp only [happ]
          by_cases hdd : dt0 = dt
          · subst hdd
            have hsing : lookupRec [(dt0, mkDailyWeather pr)] dt0
                = some (mkDailyWeather pr) := by simp [lookupRec]
            simp only [hsing]
            have hp : (mkDate pr.year pr.month pr.day == some dt0) = true := by
              rw [hdt0]
              exact beq_self_eq_true _
            have hfind : List.find?
                  (fun pr' : ParsedRow => mkDate pr'.year pr'.month pr'.day == some dt0)
                  (pr :: rest)
                = some pr :=
              List.find?_cons_of_pos _ hp
            simp only [specLookup]
            rw [hfind]
            rfl
          · have hsing : lookupRec [(dt0, mkDailyWeather pr)] dt = none := by
              simp [lookupRec, hdd]
            simp only [hsing]
            have hp : ¬ ((mkDate pr.year pr.month pr.day == some dt) = true) := by
              rw [hdt0]
              simp [hdd]
            have hfind : List.find?
                  (fun pr' : ParsedRow => mkDate pr'.year pr'.month pr'.day == some dt)
                  (pr :: rest)
                = List.find?
                  (fun pr' : ParsedRow => mkDate pr'.year pr'.month pr'.day == some dt)
                  rest :=
              List.find?_cons_of_neg _ hp
            simp only [specLookup]
            rw [hfind]

/-- `find?` returns the element at the first index whose predicate
holds. -/
theorem find?_first {α : Type} (p : α → Bool) :
    ∀ (l : List α) (i : Nat) (a : α),
      l.get? i = some a → p a = true →
      (∀ j, j < i → ∀ b, l.get? j = some b → p b = false) →
      l.find? p = some a := by
  intro l
  induction l with
  | nil => intro i a ha; cases ha
  | cons x xs ih =>
    intro i a ha hp hprev
    cases i with
    | zero =>
      rw [List.get?_cons_zero] at ha
      cases ha
      exact List.find?_cons_of_pos _ hp
    | succ j =>
      have hx : p x = false := hprev 0 (Nat.succ_pos j) x rfl
      rw [List.find?_cons_of_neg _ (by simp [hx])]
      exact ih j a ha hp (fun j' hj' b hb => hprev (j' + 1) (Nat.succ_lt_succ hj') b hb)

/-- **C9.** Every accepted row is retrievable from the resulting store
at its constructed date, as the `DailyWeather` built from the row's
parsed values (trace-flagged precipitation-family fields were recorded
as `-1` during parsing), provided no earlier accepted row constructed
the same date (the first occurrence wins). -/
theorem load_data_roundtrip (rows : List (List String)) (hw : HistoricalWeather)
    (h : load_data rows = Except.ok (some hw))
    (i : Nat) (pr : ParsedRow) (hpr : (acceptedRows rows).get? i = some pr)
    (dt : Date) (hdt : mkDate pr.year pr.month pr.day = some dt)
    (hprev : ∀ j, j < i → ∀ pr', (acceptedRows rows).get? j = some pr' →
      mkDate pr'.year pr'.month pr'.day ≠ some dt) :
    retrieve_weather hw dt = some (mkDailyWeather pr) := by
  cases hf : filterRows rows with
  | error e => rw [load_data, hf] at h; cases h
  | ok kept =>
    have hkept : kept = acceptedRows rows := filterRows_ok rows kept hf
    have hld : load_data rows = buildPhase kept := by rw [load_data, hf]
    rw [hld] at h
    cases hkc : kept with
    | nil =>
      rw [hkc] at h
      simp [buildPhase] at h
    | cons first rest =>
      rw [hkc] at h hkept
      cases hbr : buildRecord ⟨first.stn_name, (first.lat, first.long), []⟩
          (first :: rest) with
      | error e => simp [buildPhase, hbr] at h
      | ok hw2 =>
        simp only [buildPhase, hbr] at h
        obtain rfl : hw2 = hw := by
          cases h
          rfl
        have hlook := buildRecord_lookup (first :: rest)
          ⟨first.stn_name, (first.lat, first.long), []⟩ hw2 hbr dt
        rw [retrieve_weather, hlook]
        show specLookup (first :: rest) dt = some (mkDailyWeather pr)
        rw [hkept, specLookup]
        have hp : (mkDate pr.year pr.month pr.day == some dt) = true := by
          rw [hdt]
          exact beq_self_eq_true _
        have hprevB : ∀ j, j < i → ∀ b, (acceptedRows rows).get? j = some b →
            (mkDate b.year b.month b.day == some dt) = false := by
          intro j hj b hb
          exact beq_eq_false_iff_ne.mpr (hprev j hj b hb)
        rw [find?_first _ (acceptedRows rows) i pr hpr hp hprevB]
        rfl

/-- Witness for C9 on the single accepted row `goodRow` (which has a
trace-flagged total precipitation). -/
theorem load_data_roundtrip_witness :
    ∃ hw pr, load_data [goodRow] = Except.ok (some hw) ∧
      (acceptedRows [goodRow]).get? 0 = some pr ∧
      retrieve_weather hw ⟨2020, 6, 4⟩ = some (mkDailyWeather pr) := by
  refine ⟨_, _, rfl, rfl, ?_⟩
  exact load_data_roundtrip [goodRow] _ rfl 0 _ rfl ⟨2020, 6, 4⟩ rfl
    (fun j hj _ _ => absurd hj (Nat.not_lt_zero j))

/-! ### C10: the query methods are pure observers

Each observer method is re-translated statement-by-statement as a state
transformer on the `HistoricalWeather` (the object `self`): the loop
body threads the object through every iteration exactly where the
Python body could have assigned to `self`, and the method returns the
final object alongside its result.  The theorem shows the final object
is the initial one and the result agrees with the pure translation. -/

/-- A fold whose body leaves the first (state) component untouched
splits into the unchanged state and a pure fold. -/
theorem foldl_pair_fst {σ α ι : Type} (g : σ → α → ι → α) (l : List ι)
    (s : σ) (a : α) :
    l.foldl (fun p i => (p.1, g p.1 p.2 i)) (s, a)
      = (s, l.foldl (fun acc i => g s acc i) a) := by
  induction l generalizing a with
  | nil => rfl
  | cons x xs ih => exact ih (g s a x)

/-- `record_high` with the object state threaded through the loop. -/
def record_high_st (hw : HistoricalWeather) (m d : Nat) :
    Option Rat × HistoricalWeather :=
  let st := hw.records.foldl
    (fun (p : HistoricalWeather × List Rat) e =>
      (p.1, if e.1.month == m && e.1.day == d then p.2 ++ [e.2.high_temp] else p.2))
    (hw, [])
  (pyMax st.2, st.1)

/-- `monthly_average` with the object state threaded through both
loops (the inner loop iterates the records of the threaded object). -/
def monthly_average_st (hw : HistoricalWeather) :
    List (String × Option Rat) × HistoricalWeather :=
  let st := (List.range 12).foldl
    (fun (p : HistoricalWeather × List (String × Option Rat)) i =>
      let inner := p.1.records.foldl
        (fun (q : HistoricalWeather × List Rat) e =>
          (q.1, if e.1.month == i + 1 then q.2 ++ [e.2.low_temp] else q.2))
        (p.1, [])
      (inner.1,
        p.2 ++ [(monthAbbrev (i + 1),
          if inner.2.length > 0 then some (inner.2.sum / inner.2.length) else none)]))
    (hw, [])
  (st.2, st.1)

/-- `contiguous_precipitation` with the object state threaded; the
inner `while` walk reads the records of the threaded object. -/
def contiguous_precipitation_st (hw : HistoricalWeather) :
    Option (Date × Nat) × HistoricalWeather :=
  let st := hw.records.foldl
    (fun (p : HistoricalWeather × (List Date × List Nat)) e =>
      (p.1, (p.2.1 ++ [e.1], p.2.2 ++ [runLen p.1.records p.1.records.length e.1])))
    (hw, ([], []))
  (if st.2.1 = [] then none
   else some (st.2.1.getD (st.2.2.indexOf (st.2.2.foldl max 0)) ⟨0, 0, 0⟩,
     st.2.2.foldl max 0),
   st.1)

/-- `percentage_snowfall` with the object state threaded. -/
def percentage_snowfall_st (hw : HistoricalWeather) :
    Option Rat × HistoricalWeather :=
  let st := hw.records.foldl
    (fun (p : HistoricalWeather × (Rat × Rat)) e =>
      (p.1,
        (if e.2.rainfall ≠ -1 then p.2.1 + e.2.rainfall else p.2.1,
         if e.2.snowfall ≠ -1 then p.2.2 + e.2.snowfall else p.2.2)))
    (hw, ((0 : Rat), (0 : Rat)))
  (if st.2.2 + st.2.1 = 0 then none else some (st.2.2 / (st.2.2 + st.2.1)), st.1)

/-- `retrieve_weather` with the object state: its loop only reads and
early-returns, assigning to nothing. -/
def retrieve_weather_st (hw : HistoricalWeather) (d : Date) :
    Option DailyWeather × HistoricalWeather :=
  (lookupRec hw.records d, hw)

/-- A loop `for e in l: acc.append (f e)` is a map. -/
theorem foldl_append_map {α β : Type} (f : α → β) (l : List α) (acc : List β) :
    l.foldl (fun acc e => acc ++ [f e]) acc = acc ++ l.map f := by
  induction l generalizing acc with
  | nil => simp
  | cons x xs ih => simp [List.foldl_cons, ih]

theorem inner_lows_loop (s : HistoricalWeather) (i : Nat) :
    s.records.foldl
      (fun (q : HistoricalWeather × List Rat) e =>
        (q.1, if e.1.month == i + 1 then q.2 ++ [e.2.low_temp] else q.2))
      (s, [])
    = (s, lowsForMonth s (i + 1)) :=
  foldl_pair_fst
    (fun (_ : HistoricalWeather) (acc : List Rat) (e : Date × DailyWeather) =>
      if e.1.month == i + 1 then acc ++ [e.2.low_temp] else acc)
    s.records s []

/-- Two parallel `append` loops over one list are two maps. -/
theorem foldl_pair_append_append {α β γ : Type} (f : α → β) (g : α → γ)
    (l : List α) (a : List β) (b : List γ) :
    l.foldl (fun acc e => (acc.1 ++ [f e], acc.2 ++ [g e])) (a, b)
      = (a ++ l.map f, b ++ l.map g) := by
  induction l generalizing a b with
  | nil => simp
  | cons x xs ih => simp [List.foldl_cons, ih]

/-- **C10.** The four aggregate queries and `retrieve_weather` leave
the `HistoricalWeather` (name, coordinates and record store) exactly
unchanged, and their results agree with the pure translations used in
the other theorems. -/
theorem observers_pure (hw : HistoricalWeather) (m d : Nat) (dt : Date) :
    (record_high_st hw m d).2 = hw ∧
    (record_high_st hw m d).1 = record_high hw m d ∧
    (monthly_average_st hw).2 = hw ∧
    (monthly_average_st hw).1 = monthly_average hw ∧
    (contiguous_precipitation_st hw).2 = hw ∧
    (contiguous_precipitation_st hw).1 = contiguous_precipitation hw ∧
    (percentage_snowfall_st hw).2 = hw ∧
    (percentage_snowfall_st hw).1 = percentage_snowfall hw ∧
    (retrieve_weather_st hw dt).2 = hw ∧
    (retrieve_weather_st hw dt).1 = retrieve_weather hw dt := by
  have hrh := foldl_pair_fst
    (fun (_ : HistoricalWeather) (acc : List Rat) (e : Date × DailyWeather) =>
      if e.1.month == m && e.1.day == d then acc ++ [e.2.high_temp] else acc)
    hw.records hw []
  have hps := foldl_pair_fst
    (fun (_ : HistoricalWeather) (acc : Rat × Rat) (e : Date × DailyWeather) =>
      (if e.2.rainfall ≠ -1 then acc.1 + e.2.rainfall else acc.1,
       if e.2.snowfall ≠ -1 then acc.2 + e.2.snowfall else acc.2))
    hw.records hw ((0 : Rat), (0 : Rat))
  have hcpfold := foldl_pair_fst
    (fun (s : HistoricalWeather) (acc : List Date × List Nat) (e : Date × DailyWeather) =>
      (acc.1 ++ [e.1], acc.2 ++ [runLen s.records s.records.length e.1]))
    hw.records hw (([] : List Date), ([] : List Nat))
  refine ⟨?_, ?_, ?_, ?_, ?_, ?_, ?_, ?_, rfl, rfl⟩
  · simp only [record_high_st]
    rw [hrh]
  · simp only [record_high_st, record_high]
    rw [hrh]
  · simp only [monthly_average_st, inner_lows_loop]
    rw [foldl_pair_fst (fun (s : HistoricalWeather)
        (acc : List (String × Option Rat)) (i : Nat) =>
      acc ++ [(monthAbbrev (i + 1),
        if (lowsForMonth s (i + 1)).length > 0
        then some ((lowsForMonth s (i + 1)).sum / ((lowsForMonth s (i + 1)).length : Rat))
        else none)])]
  · simp only [monthly_average_st, inner_lows_loop, monthly_average]
    rw [foldl_pair_fst (fun (s : HistoricalWeather)
        (acc : List (String × Option Rat)) (i : Nat) =>
      acc ++ [(monthAbbrev (i + 1),
        if (lowsForMonth s (i + 1)).length > 0
        then some ((lowsForMonth s (i + 1)).sum / ((lowsForMonth s (i + 1)).length : Rat))
        else none)])]
    rw [foldl_append_map (fun i => (monthAbbrev (i + 1),
        if (lowsForMonth hw (i + 1)).length > 0
        then some ((lowsForMonth hw (i + 1)).sum / ((lowsForMonth hw (i + 1)).length : Rat))
        else none))]
    rfl
  · simp only [contiguous_precipitation_st]
    rw [hcpfold]
  · simp only [contiguous_precipitation_st, contiguous_precipitation]
    rw [hcpfold]
    rw [foldl_pair_append_append (fun (e : Date × DailyWeather) => e.1)
      (fun e => runLen hw.records hw.records.length e.1), List.map_map]
    rfl
  · simp only [percentage_snowfall_st]
    rw [hps]
  · simp only [percentage_snowfall_st, percentage_snowfall, precip_totals]
    rw [hps]

end WeatherAnalyzer
